import Mathlib

/-!
Verification of the squeeze-hut market scanner (src/app.py).

The Python program computes a TTM-squeeze indicator over OHLCV candle
series (`calculate_squeeze`, lines 52-99), orchestrates a scan over the
configured tickers (`scan_markets`, lines 116-144), stores the resulting
snapshot in a lock-guarded global (`squeeze_data`, lines 19-20, 143-144)
and serves it (`get_signals`, lines 294-302).

Numeric data is modelled over the real numbers; pandas series are lists,
and rolling-window outputs (which pandas leaves as NaN for the first
L-1 positions) are `Option` values, with NaN-style comparisons that are
false whenever a side is missing.  The publish/read critical sections of
the Python code are single atomic assignments/copies under one lock, so
they are embedded as atomic state transitions.
-/

open Real

/-- One OHLCV candle: a row of the DataFrame built in `fetch_yahoo_data`
(lines 40-45). -/
structure Candle where
  close : ℝ
  high : ℝ
  low : ℝ
  volume : ℝ

abbrev Df := List Candle

def closes (df : Df) : List ℝ := df.map Candle.close

def highs (df : Df) : List ℝ := df.map Candle.high

def lows (df : Df) : List ℝ := df.map Candle.low

def volumes (df : Df) : List ℝ := df.map Candle.volume

/-- Boolean strict comparison on reals (pandas `<` on two scalar floats). -/
noncomputable def rltB (a b : ℝ) : Bool := if a < b then true else false

/-- Pandas comparison where a side may be NaN (modelled `none`): any
comparison with NaN is false. -/
noncomputable def oltB : Option ℝ → Option ℝ → Bool
  | some a, some b => rltB a b
  | _, _ => false

/-- `x > y` on possibly-NaN values, mirroring the source's reading order. -/
noncomputable def ogtB (x y : Option ℝ) : Bool := oltB y x

/-- Python `int(x)` on a float: truncation toward zero. -/
noncomputable def pyInt (x : ℝ) : ℤ := if 0 ≤ x then ⌊x⌋ else ⌈x⌉

/-- One step of pandas `ewm(span, adjust=False)`: `y = y + α·(x − y)`. -/
noncomputable def ewmAux (a : ℝ) (p : ℝ) : List ℝ → List ℝ
  | [] => []
  | x :: xs => (p + a * (x - p)) :: ewmAux a (p + a * (x - p)) xs

/-- `series.ewm(span=s, adjust=False).mean()`: recursive exponential
smoothing with `α = 2/(s+1)`, seeded from the first value. -/
noncomputable def ewm (s : ℕ) : List ℝ → List ℝ
  | [] => []
  | x :: xs => x :: ewmAux (2 / ((s : ℝ) + 1)) x xs

/-- The trailing window of length `L` ending at index `i` of `xs`
(defined only once `i + 1 ≥ L`, as in pandas `rolling(L)`). -/
def window (L : ℕ) (xs : List ℝ) (i : ℕ) : Option (List ℝ) :=
  if L ≤ i + 1 then some ((xs.take (i + 1)).drop (i + 1 - L)) else none

/-- `series.rolling(L).f()`: apply `f` to each trailing window, NaN
(`none`) until the window is full. -/
def rollingApply (f : List ℝ → ℝ) (L : ℕ) (xs : List ℝ) : List (Option ℝ) :=
  (List.range xs.length).map (fun i => (window L xs i).map f)

/-- Arithmetic mean of a window. -/
noncomputable def listMean (w : List ℝ) : ℝ := w.sum / (w.length : ℝ)

/-- Pandas sample standard deviation (`ddof = 1`) of a window. -/
noncomputable def sampleStd (w : List ℝ) : ℝ :=
  Real.sqrt ((w.map (fun x => (x - listMean w) ^ 2)).sum / ((w.length : ℝ) - 1))

noncomputable def rollingMean (L : ℕ) (xs : List ℝ) : List (Option ℝ) :=
  rollingApply listMean L xs

noncomputable def rollingStd (L : ℕ) (xs : List ℝ) : List (Option ℝ) :=
  rollingApply sampleStd L xs

/-- Line 59: `ema = df['close'].ewm(span=L, adjust=False).mean()`. -/
noncomputable def emaSeries (L : ℕ) (df : Df) : List ℝ := ewm L (closes df)

/-- Line 60: `atr = (df['high'] - df['low']).rolling(L).mean()`. -/
noncomputable def atrSeries (L : ℕ) (df : Df) : List (Option ℝ) :=
  rollingMean L (List.zipWith (· - ·) (highs df) (lows df))

/-- Line 61: `kc_upper = ema + kc * atr`. -/
noncomputable def kcUpper (L : ℕ) (kc : ℝ) (df : Df) : List (Option ℝ) :=
  List.zipWith (fun e a => a.map (fun t => e + kc * t)) (emaSeries L df) (atrSeries L df)

/-- Line 62: `kc_lower = ema - kc * atr`. -/
noncomputable def kcLower (L : ℕ) (kc : ℝ) (df : Df) : List (Option ℝ) :=
  List.zipWith (fun e a => a.map (fun t => e - kc * t)) (emaSeries L df) (atrSeries L df)

/-- Line 65: `sma = df['close'].rolling(L).mean()`. -/
noncomputable def smaSeries (L : ℕ) (df : Df) : List (Option ℝ) :=
  rollingMean L (closes df)

/-- Line 66: `std = df['close'].rolling(L).std()`. -/
noncomputable def stdSeries (L : ℕ) (df : Df) : List (Option ℝ) := rollingStd L (closes df)

/-- Line 67: `bb_upper = sma + bb * std`. -/
noncomputable def bbUpper (L : ℕ) (bb : ℝ) (df : Df) : List (Option ℝ) :=
  List.zipWith (fun m s => m.bind (fun mv => s.map (fun sv => mv + bb * sv)))
    (smaSeries L df) (stdSeries L df)

/-- Line 68: `bb_lower = sma - bb * std`. -/
noncomputable def bbLower (L : ℕ) (bb : ℝ) (df : Df) : List (Option ℝ) :=
  List.zipWith (fun m s => m.bind (fun mv => s.map (fun sv => mv - bb * sv)))
    (smaSeries L df) (stdSeries L df)

/-- Line 71: `in_squeeze = (bb_lower > kc_lower) & (bb_upper < kc_upper)`. -/
noncomputable def inSqueeze (L : ℕ) (bb kc : ℝ) (df : Df) : List Bool :=
  List.zipWith and
    (List.zipWith ogtB (bbLower L bb df) (kcLower L kc df))
    (List.zipWith oltB (bbUpper L bb df) (kcUpper L kc df))

/-- Line 74: `vol_avg = df['volume'].rolling(L).mean()`. -/
noncomputable def volAvg (L : ℕ) (df : Df) : List (Option ℝ) :=
  rollingMean L (volumes df)

/-- Line 75: `high_vol = df['volume'] > vol * vol_avg`. -/
noncomputable def highVol (L : ℕ) (vol : ℝ) (df : Df) : List Bool :=
  List.zipWith (fun v a => ogtB (some v) (a.map (fun t => vol * t)))
    (volumes df) (volAvg L df)

/-- Lines 78-80: `macd = ema12 - ema26`. -/
noncomputable def macdSeries (df : Df) : List ℝ :=
  List.zipWith (· - ·) (ewm 12 (closes df)) (ewm 26 (closes df))

/-- Line 81: `signal = macd.ewm(span=9, adjust=False).mean()`. -/
noncomputable def signalSeries (df : Df) : List ℝ := ewm 9 (macdSeries df)

/-- Line 82: `macd_bull = macd > signal`. -/
noncomputable def macdBull (df : Df) : List Bool :=
  List.zipWith (fun m s => rltB s m) (macdSeries df) (signalSeries df)

/-- Line 85: `squeeze_signal = in_squeeze & high_vol & macd_bull`. -/
noncomputable def squeezeSignal (L : ℕ) (bb kc vol : ℝ) (df : Df) : List Bool :=
  List.zipWith and (List.zipWith and (inSqueeze L bb kc df) (highVol L vol df)) (macdBull df)

/-- The per-instrument result dictionary of `calculate_squeeze`:
either the empty dict `{}` (line 56), the error dict of line 99, or the
full signal dict of lines 88-96. -/
inductive SqueezeDetails where
  | empty
  | err (message : String)
  | sig (price : ℝ) (volume : ℤ) (in_squeeze high_volume macd_bullish signal : Bool)

/-- Price field of a details dict (`details['price']`, line 140); the
access only happens on signal dicts. -/
noncomputable def SqueezeDetails.priceOf : SqueezeDetails → ℝ
  | .sig p _ _ _ _ _ => p
  | _ => 0

/-- The `try` body of `calculate_squeeze` (lines 55-96) as a fallible
computation; in this real-number model the numeric body never faults. -/
noncomputable def calculate_squeeze_body (df : Df) (L : ℕ) (bb kc vol : ℝ) :
    Except String (Bool × SqueezeDetails) :=
  if df.length < L + 26 then .ok (false, .empty)
  else
    .ok ((squeezeSignal L bb kc vol df).getLastD false,
      .sig ((closes df).getLastD 0)
        (pyInt ((volumes df).getLastD 0))
        ((inSqueeze L bb kc df).getLastD false)
        ((highVol L vol df).getLastD false)
        ((macdBull df).getLastD false)
        ((squeezeSignal L bb kc vol df).getLastD false))

/-- The `except` clause of lines 97-99: any fault becomes
`False, {'error': True, 'message': str(e)}`. -/
def squeeze_catch : Except String (Bool × SqueezeDetails) → Bool × SqueezeDetails
  | .ok r => r
  | .error e => (false, .err e)

/-- `calculate_squeeze(df, L=20, bb=2.0, kc=1.5, vol=1.5)`, lines 52-99. -/
noncomputable def calculate_squeeze (df : Df) (L : ℕ) (bb kc vol : ℝ) :
    Bool × SqueezeDetails :=
  squeeze_catch (calculate_squeeze_body df L bb kc vol)

/-- Message of the orchestrator's missing-data dictionary (line 130). -/
def msgNoData : String := "No data available"

/-- The message string asserted by the specification for the
missing-data case. -/
def msgNoDataClaim : String := "no data available"

/-- The message string asserted by the specification for the
insufficient-history case. -/
def msgInsufficient : String := "insufficient data"

/-- One value of the published snapshot dictionary: either the
missing-data error dict of lines 128-132 (which carries
`error: True` and `signal: False`), or an engine result stamped with a
timestamp (lines 135-137). -/
inductive Entry where
  | errNoData (message : String)
  | stamped (d : SqueezeDetails) (timestamp : String)

/-- The `signal` key of a snapshot entry, when present. -/
def Entry.signalField : Entry → Option Bool
  | .errNoData _ => some false
  | .stamped (.sig _ _ _ _ _ s) _ => some s
  | .stamped _ _ => none

/-- The `message` key of a snapshot entry, when present. -/
def Entry.messageField : Entry → Option String
  | .errNoData m => some m
  | .stamped (.err m) _ => some m
  | .stamped _ _ => none

abbrev Snapshot := List (String × Entry)

/-- `ticker.strip().upper()`, line 124. -/
def normalizeTicker (t : String) : String := t.trim.toUpper

/-- Python dict assignment `d[k] = v`: overwrite in place, else append. -/
def dictInsert (k : String) (v : Entry) : Snapshot → Snapshot
  | [] => [(k, v)]
  | (k', v') :: rest => if k' = k then (k, v) :: rest else (k', v') :: dictInsert k v rest

/-- The entry recorded for one (already normalized) ticker in one scan
iteration, lines 125-137.  `fetch` abstracts `fetch_yahoo_data`
(returns `None` on any failure), `now` the wall-clock timestamp. -/
noncomputable def scanEntry (fetch : String → Option Df) (now : String) (k : String) : Entry :=
  match fetch k with
  | none => .errNoData msgNoData
  | some df =>
    if df.length < 50 then .errNoData msgNoData
    else .stamped (calculate_squeeze df 20 2 1.5 1.5).2 now

/-- The Discord alert issued for one (normalized) ticker, lines 139-140:
fired when `is_squeeze` is truthy, carrying the symbol and
`details['price']`. -/
noncomputable def scanAlert (fetch : String → Option Df) (k : String) : Option (String × ℝ) :=
  match fetch k with
  | none => none
  | some df =>
    if df.length < 50 then none
    else if (calculate_squeeze df 20 2 1.5 1.5).1 then
      some (k, (calculate_squeeze df 20 2 1.5 1.5).2.priceOf)
    else none

/-- One iteration of the `for ticker in TICKERS` loop of `scan_markets`:
record the entry into `temp_data`, fire the alert if any. -/
noncomputable def scanStep (fetch : String → Option Df) (now : String)
    (acc : Snapshot × List (String × ℝ)) (t : String) : Snapshot × List (String × ℝ) :=
  (dictInsert (normalizeTicker t) (scanEntry fetch now (normalizeTicker t)) acc.1,
   acc.2 ++ (scanAlert fetch (normalizeTicker t)).toList)

/-- `scan_markets` (lines 116-144) as a pure function of the configured
tickers, the fetch oracle and the wall-clock time: the built `temp_data`
snapshot and the alerts fired during the loop, in order. -/
noncomputable def scan_markets (tickers : List String) (fetch : String → Option Df)
    (now : String) : Snapshot × List (String × ℝ) :=
  tickers.foldl (scanStep fetch now) ([], [])

/-- Observable events of one scan, in program order: the Discord alerts
fire inside the loop (line 140), the snapshot is published once after
the loop (lines 143-144). -/
inductive Event where
  | alert (sym : String) (price : ℝ)
  | publish (snap : Snapshot)

/-- The ordered event trace of one `scan_markets` call. -/
noncomputable def scan_trace (tickers : List String) (fetch : String → Option Df)
    (now : String) : List Event :=
  ((scan_markets tickers fetch now).2.map (fun a => Event.alert a.1 a.2)) ++
    [Event.publish (scan_markets tickers fetch now).1]

/-- Lines 143-144: `with data_lock: squeeze_data = temp_data` — a single
atomic wholesale replacement of the store. -/
def publish (store : Snapshot) (snap : Snapshot) : Snapshot := snap

/-- Lines 297-298: `with data_lock: data = dict(squeeze_data)` — an
atomic read of the whole current snapshot. -/
def get_signals (store : Snapshot) : Snapshot := store

/-- Line 19: `squeeze_data = {}` — the store before the first publish. -/
def squeeze_data_init : Snapshot := []

/-- A 50-candle test series: 49 candles of close 100, then one of close
101; every candle has `high − low = hi`; all volume is in the last
candle.  Long enough for every indicator window and for the
orchestrator's 50-sample guard. -/
def testDf (hi : ℝ) : Df :=
  List.replicate 49 ⟨100, hi, 0, 0⟩ ++ [⟨101, hi, 0, 100⟩]

/-- Ticker and timestamp literals used for concrete evaluations. -/
def tkA : String := "aapl"

def tkZ : String := "zzz"

def tkOk : String := "ok"

def tkBad : String := "bad"

def tsT0 : String := "t0"

def eBoom : String := "boom"

/-! ## Basic list utilities -/

theorem getLastD_of_getLast? {α : Type _} {l : List α} {a : α} (h : l.getLast? = some a)
    (d : α) : l.getLastD d = a := by
  cases l <;> simp_all [List.getLastD_eq_getLast?]

theorem mem_of_getLast?' {α : Type _} {l : List α} {a : α} (h : l.getLast? = some a) :
    a ∈ l := by
  cases l with
  | nil => simp at h
  | cons x xs =>
    rw [List.getLast?_eq_getLast _ (by simp)] at h
    have hm := List.getLast_mem (l := x :: xs) (by simp)
    rwa [Option.some_inj.mp h] at hm

theorem exists_getLast? {α : Type _} {l : List α} (h : l ≠ []) :
    ∃ a, l.getLast? = some a := by
  cases l with
  | nil => exact absurd rfl h
  | cons x xs => exact ⟨_, List.getLast?_eq_getLast _ (by simp)⟩

theorem getLast?_zipWith {α β γ : Type _} (f : α → β → γ) (as : List α) (bs : List β)
    (a : α) (b : β) (hlen : as.length = bs.length) (ha : as.getLast? = some a)
    (hb : bs.getLast? = some b) :
    (List.zipWith f as bs).getLast? = some (f a b) := by
  induction as generalizing bs a b with
  | nil => simp at ha
  | cons x xs ih =>
    cases bs with
    | nil => simp at hlen
    | cons y ys =>
      cases xs with
      | nil =>
        cases ys with
        | nil => simp at ha hb ⊢; simp [ha, hb]
        | cons z zs => simp at hlen
      | cons x' xs' =>
        cases ys with
        | nil => simp at hlen
        | cons z zs =>
          have h1 : (x' :: xs').length = (z :: zs).length := by simpa using hlen
          have ha' : (x' :: xs').getLast? = some a := by
            rwa [List.getLast?_cons_cons] at ha
          have hb' : (z :: zs).getLast? = some b := by
            rwa [List.getLast?_cons_cons] at hb
          have hrec := ih (z :: zs) a b h1 ha' hb'
          show (f x y :: (f x' z :: List.zipWith f xs' zs)).getLast? = some (f a b)
          rw [List.getLast?_cons_cons]
          exact hrec

theorem zipWith_replicate' {α β γ : Type _} (f : α → β → γ) (n : ℕ) (a : α) (b : β) :
    List.zipWith f (List.replicate n a) (List.replicate n b) = List.replicate n (f a b) := by
  induction n with
  | zero => simp
  | succ m ih => simp [List.replicate_succ, ih]

/-! ## Series lengths -/

@[simp] theorem length_ewmAux (a p : ℝ) (xs : List ℝ) : (ewmAux a p xs).length = xs.length := by
  induction xs generalizing p with
  | nil => rfl
  | cons x t ih => simp [ewmAux, ih]

@[simp] theorem length_ewm (s : ℕ) (xs : List ℝ) : (ewm s xs).length = xs.length := by
  cases xs <;> simp [ewm]

@[simp] theorem length_rollingApply (f : List ℝ → ℝ) (L : ℕ) (xs : List ℝ) :
    (rollingApply f L xs).length = xs.length := by
  simp [rollingApply]

@[simp] theorem length_closes (df : Df) : (closes df).length = df.length := by simp [closes]

@[simp] theorem length_highs (df : Df) : (highs df).length = df.length := by simp [highs]

@[simp] theorem length_lows (df : Df) : (lows df).length = df.length := by simp [lows]

@[simp] theorem length_volumes (df : Df) : (volumes df).length = df.length := by
  simp [volumes]

@[simp] theorem length_rollingMean (L : ℕ) (xs : List ℝ) :
    (rollingMean L xs).length = xs.length := by simp [rollingMean]

@[simp] theorem length_rollingStd (L : ℕ) (xs : List ℝ) :
    (rollingStd L xs).length = xs.length := by simp [rollingStd]

@[simp] theorem length_emaSeries (L : ℕ) (df : Df) :
    (emaSeries L df).length = df.length := by simp [emaSeries]

@[simp] theorem length_atrSeries (L : ℕ) (df : Df) :
    (atrSeries L df).length = df.length := by simp [atrSeries]

@[simp] theorem length_kcUpper (L : ℕ) (kc : ℝ) (df : Df) :
    (kcUpper L kc df).length = df.length := by simp [kcUpper]

@[simp] theorem length_kcLower (L : ℕ) (kc : ℝ) (df : Df) :
    (kcLower L kc df).length = df.length := by simp [kcLower]

@[simp] theorem length_smaSeries (L : ℕ) (df : Df) :
    (smaSeries L df).length = df.length := by simp [smaSeries]

@[simp] theorem length_stdSeries (L : ℕ) (df : Df) :
    (stdSeries L df).length = df.length := by simp [stdSeries]

@[simp] theorem length_bbUpper (L : ℕ) (bb : ℝ) (df : Df) :
    (bbUpper L bb df).length = df.length := by simp [bbUpper]

@[simp] theorem length_bbLower (L : ℕ) (bb : ℝ) (df : Df) :
    (bbLower L bb df).length = df.length := by simp [bbLower]

@[simp] theorem length_inSqueeze (L : ℕ) (bb kc : ℝ) (df : Df) :
    (inSqueeze L bb kc df).length = df.length := by simp [inSqueeze]

@[simp] theorem length_volAvg (L : ℕ) (df : Df) :
    (volAvg L df).length = df.length := by simp [volAvg]

@[simp] theorem length_highVol (L : ℕ) (vol : ℝ) (df : Df) :
    (highVol L vol df).length = df.length := by simp [highVol]

@[simp] theorem length_macdSeries (df : Df) : (macdSeries df).length = df.length := by
  simp [macdSeries]

@[simp] theorem length_signalSeries (df : Df) : (signalSeries df).length = df.length := by
  simp [signalSeries]

@[simp] theorem length_macdBull (df : Df) : (macdBull df).length = df.length := by
  simp [macdBull]

@[simp] theorem length_squeezeSignal (L : ℕ) (bb kc vol : ℝ) (df : Df) :
    (squeezeSignal L bb kc vol df).length = df.length := by simp [squeezeSignal]

/-! ## Last elements of the derived series -/

theorem getLast?_rollingApply (f : List ℝ → ℝ) (L : ℕ) (xs : List ℝ)
    (hne : xs ≠ []) (hL : L ≤ xs.length) :
    (rollingApply f L xs).getLast? = some (some (f (xs.drop (xs.length - L)))) := by
  obtain ⟨n, hn⟩ : ∃ n, xs.length = n + 1 := by
    cases xs with
    | nil => exact absurd rfl hne
    | cons x t => exact ⟨t.length, rfl⟩
  rw [rollingApply, hn, List.range_succ, List.map_append]
  simp only [List.map_cons, List.map_nil, List.getLast?_concat]
  have hwin : window L xs n = some (xs.drop (xs.length - L)) := by
    rw [window, if_pos (by omega)]
    have : xs.take (n + 1) = xs := by
      rw [← hn]; exact List.take_length xs
    rw [this, ← hn]
  rw [hwin, Option.map_some', hn]

theorem getLast?_ewm (s : ℕ) (xs : List ℝ) (hne : xs ≠ []) :
    ∃ v, (ewm s xs).getLast? = some v := by
  apply exists_getLast?
  intro h
  have := congrArg List.length h
  simp at this
  exact hne this

/-! ## Structural evaluation of `ewm` on constant and near-constant data -/

theorem ewmAux_replicate (a c : ℝ) (n : ℕ) :
    ewmAux a c (List.replicate n c) = List.replicate n c := by
  induction n with
  | zero => rfl
  | succ m ih => simp [List.replicate_succ, ewmAux, ih]

theorem ewm_replicate (s : ℕ) (c : ℝ) (n : ℕ) :
    ewm s (List.replicate n c) = List.replicate n c := by
  cases n with
  | zero => rfl
  | succ m => simp [List.replicate_succ, ewm, ewmAux_replicate]

theorem ewmAux_replicate_concat (a c d : ℝ) (n : ℕ) :
    ewmAux a c (List.replicate n c ++ [d]) =
      List.replicate n c ++ [c + a * (d - c)] := by
  induction n with
  | zero => simp [ewmAux]
  | succ m ih => simp [List.replicate_succ, ewmAux, ih]

theorem ewm_replicate_concat (s : ℕ) (c d : ℝ) (n : ℕ) :
    ewm s (List.replicate (n + 1) c ++ [d]) =
      List.replicate (n + 1) c ++ [c + (2 / ((s : ℝ) + 1)) * (d - c)] := by
  simp [List.replicate_succ, ewm, ewmAux_replicate_concat]

/-! ## Boolean comparison characterizations -/

theorem rltB_eq_true {a b : ℝ} : rltB a b = true ↔ a < b := by
  by_cases h : a < b <;> simp [rltB, h]

theorem rltB_eq_false {a b : ℝ} : rltB a b = false ↔ b ≤ a := by
  by_cases h : a < b
  · simp [rltB, h]
  · simp [rltB, h]
    exact not_lt.mp h

theorem ne_nil_of_length_eq {α : Type _} {l : List α} {n : ℕ} (hl : l.length = n)
    (hn : 0 < n) : l ≠ [] := by
  intro h
  subst h
  simp at hl
  omega

theorem getLastD_zipWith' {α β γ : Type _} (f : α → β → γ) (as : List α) (bs : List β)
    (da : α) (db : β) (dc : γ) (hlen : as.length = bs.length) (hne : as ≠ []) :
    (List.zipWith f as bs).getLastD dc = f (as.getLastD da) (bs.getLastD db) := by
  obtain ⟨a, ha⟩ := exists_getLast? hne
  have hbne : bs ≠ [] := by
    intro h
    subst h
    simp at hlen
    exact hne hlen
  obtain ⟨b, hb⟩ := exists_getLast? hbne
  rw [getLastD_of_getLast? (getLast?_zipWith f as bs a b hlen ha hb),
    getLastD_of_getLast? ha, getLastD_of_getLast? hb]

/-! ## The engine on series long enough for the guard -/

theorem calculate_squeeze_of_le (df : Df) (L : ℕ) (bb kc vol : ℝ)
    (h : L + 26 ≤ df.length) :
    calculate_squeeze df L bb kc vol =
      ((squeezeSignal L bb kc vol df).getLastD false,
        .sig ((closes df).getLastD 0)
          (pyInt ((volumes df).getLastD 0))
          ((inSqueeze L bb kc df).getLastD false)
          ((highVol L vol df).getLastD false)
          ((macdBull df).getLastD false)
          ((squeezeSignal L bb kc vol df).getLastD false)) := by
  rw [calculate_squeeze, calculate_squeeze_body, if_neg (by omega)]
  rfl

theorem calculate_squeeze_of_lt (df : Df) (L : ℕ) (bb kc vol : ℝ)
    (h : df.length < L + 26) :
    calculate_squeeze df L bb kc vol = (false, .empty) := by
  rw [calculate_squeeze, calculate_squeeze_body, if_pos h]
  rfl

theorem squeezeSignal_getLastD (df : Df) (L : ℕ) (bb kc vol : ℝ) (hne : df ≠ []) :
    (squeezeSignal L bb kc vol df).getLastD false =
      ((inSqueeze L bb kc df).getLastD false && (highVol L vol df).getLastD false &&
        (macdBull df).getLastD false) := by
  have hpos : 0 < df.length := List.length_pos.mpr hne
  have h1 : List.zipWith and (inSqueeze L bb kc df) (highVol L vol df) ≠ [] :=
    List.ne_nil_of_length_pos (by simp [hpos])
  have h2 : inSqueeze L bb kc df ≠ [] := List.ne_nil_of_length_pos (by simp [hpos])
  rw [squeezeSignal,
    getLastD_zipWith' and _ _ false false false (by simp) h1,
    getLastD_zipWith' and _ _ false false false (by simp) h2]

theorem inSqueeze_getLastD (df : Df) (L : ℕ) (bb kc : ℝ) (hne : df ≠ []) :
    (inSqueeze L bb kc df).getLastD false =
      (ogtB ((bbLower L bb df).getLastD none) ((kcLower L kc df).getLastD none) &&
        oltB ((bbUpper L bb df).getLastD none) ((kcUpper L kc df).getLastD none)) := by
  have hpos : 0 < df.length := List.length_pos.mpr hne
  have h1 : List.zipWith ogtB (bbLower L bb df) (kcLower L kc df) ≠ [] :=
    List.ne_nil_of_length_pos (by simp [hpos])
  have h2 : bbLower L bb df ≠ [] := List.ne_nil_of_length_pos (by simp [hpos])
  have h3 : bbUpper L bb df ≠ [] := List.ne_nil_of_length_pos (by simp [hpos])
  rw [inSqueeze,
    getLastD_zipWith' and _ _ false false false (by simp) h1,
    getLastD_zipWith' ogtB _ _ none none false (by simp) h2,
    getLastD_zipWith' oltB _ _ none none false (by simp) h3]

theorem bbLower_getLastD (df : Df) (L : ℕ) (bb : ℝ) (hne : df ≠ []) :
    (bbLower L bb df).getLastD none =
      ((smaSeries L df).getLastD none).bind
        (fun mv => ((stdSeries L df).getLastD none).map (fun sv => mv - bb * sv)) := by
  have hpos : 0 < df.length := List.length_pos.mpr hne
  rw [bbLower, getLastD_zipWith' _ _ _ none none none (by simp)
    (List.ne_nil_of_length_pos (by simp [hpos]))]

theorem bbUpper_getLastD (df : Df) (L : ℕ) (bb : ℝ) (hne : df ≠ []) :
    (bbUpper L bb df).getLastD none =
      ((smaSeries L df).getLastD none).bind
        (fun mv => ((stdSeries L df).getLastD none).map (fun sv => mv + bb * sv)) := by
  have hpos : 0 < df.length := List.length_pos.mpr hne
  rw [bbUpper, getLastD_zipWith' _ _ _ none none none (by simp)
    (List.ne_nil_of_length_pos (by simp [hpos]))]

theorem kcLower_getLastD (df : Df) (L : ℕ) (kc : ℝ) (hne : df ≠ []) :
    (kcLower L kc df).getLastD none =
      ((atrSeries L df).getLastD none).map
        (fun t => (emaSeries L df).getLastD 0 - kc * t) := by
  have hpos : 0 < df.length := List.length_pos.mpr hne
  rw [kcLower, getLastD_zipWith' _ _ _ 0 none none (by simp)
    (List.ne_nil_of_length_pos (by simp [hpos]))]

theorem kcUpper_getLastD (df : Df) (L : ℕ) (kc : ℝ) (hne : df ≠ []) :
    (kcUpper L kc df).getLastD none =
      ((atrSeries L df).getLastD none).map
        (fun t => (emaSeries L df).getLastD 0 + kc * t) := by
  have hpos : 0 < df.length := List.length_pos.mpr hne
  rw [kcUpper, getLastD_zipWith' _ _ _ 0 none none (by simp)
    (List.ne_nil_of_length_pos (by simp [hpos]))]

theorem highVol_getLastD (df : Df) (L : ℕ) (vol : ℝ) (hne : df ≠ []) :
    (highVol L vol df).getLastD false =
      ogtB (some ((volumes df).getLastD 0))
        (((volAvg L df).getLastD none).map (fun t => vol * t)) := by
  have hpos : 0 < df.length := List.length_pos.mpr hne
  rw [highVol, getLastD_zipWith' _ _ _ 0 none false (by simp)
    (List.ne_nil_of_length_pos (by simp [hpos]))]

theorem macdBull_getLastD (df : Df) (hne : df ≠ []) :
    (macdBull df).getLastD false =
      rltB ((signalSeries df).getLastD 0) ((macdSeries df).getLastD 0) := by
  have hpos : 0 < df.length := List.length_pos.mpr hne
  rw [macdBull, getLastD_zipWith' _ _ _ 0 0 false (by simp)
    (List.ne_nil_of_length_pos (by simp [hpos]))]

theorem smaSeries_getLastD (df : Df) (L : ℕ) (hne : df ≠ []) (hL : L ≤ df.length) :
    (smaSeries L df).getLastD none =
      some (listMean ((closes df).drop (df.length - L))) := by
  have hpos : 0 < df.length := List.length_pos.mpr hne
  have h := getLast?_rollingApply listMean L (closes df)
    (List.ne_nil_of_length_pos (by simp [hpos])) (by simp [hL])
  rw [smaSeries, rollingMean, getLastD_of_getLast? h, length_closes]

theorem stdSeries_getLastD (df : Df) (L : ℕ) (hne : df ≠ []) (hL : L ≤ df.length) :
    (stdSeries L df).getLastD none =
      some (sampleStd ((closes df).drop (df.length - L))) := by
  have hpos : 0 < df.length := List.length_pos.mpr hne
  have h := getLast?_rollingApply sampleStd L (closes df)
    (List.ne_nil_of_length_pos (by simp [hpos])) (by simp [hL])
  rw [stdSeries, rollingStd, getLastD_of_getLast? h, length_closes]

theorem atrSeries_getLastD (df : Df) (L : ℕ) (hne : df ≠ []) (hL : L ≤ df.length) :
    (atrSeries L df).getLastD none =
      some (listMean ((List.zipWith (· - ·) (highs df) (lows df)).drop (df.length - L))) := by
  have hpos : 0 < df.length := List.length_pos.mpr hne
  have hlen : (List.zipWith (· - ·) (highs df) (lows df)).length = df.length := by simp
  have h := getLast?_rollingApply listMean L (List.zipWith (· - ·) (highs df) (lows df))
    (List.ne_nil_of_length_pos (by simp [hpos])) (by omega)
  rw [atrSeries, rollingMean, getLastD_of_getLast? h, hlen]

theorem volAvg_getLastD (df : Df) (L : ℕ) (hne : df ≠ []) (hL : L ≤ df.length) :
    (volAvg L df).getLastD none =
      some (listMean ((volumes df).drop (df.length - L))) := by
  have hpos : 0 < df.length := List.length_pos.mpr hne
  have h := getLast?_rollingApply listMean L (volumes df)
    (List.ne_nil_of_length_pos (by simp [hpos])) (by simp [hL])
  rw [volAvg, rollingMean, getLastD_of_getLast? h, length_volumes]

/-! ## Window statistics -/

theorem listMean_replicate (L : ℕ) (hL : 1 ≤ L) (c : ℝ) :
    listMean (List.replicate L c) = c := by
  rw [listMean]
  simp only [List.sum_replicate, List.length_replicate, nsmul_eq_mul]
  rw [mul_div_cancel_left₀]
  exact Nat.cast_ne_zero.mpr (by omega)

theorem sampleStd_replicate (L : ℕ) (hL : 1 ≤ L) (c : ℝ) :
    sampleStd (List.replicate L c) = 0 := by
  rw [sampleStd, listMean_replicate L hL c]
  simp

theorem listMean_nonneg (w : List ℝ) (h : ∀ x ∈ w, 0 ≤ x) : 0 ≤ listMean w :=
  div_nonneg (List.sum_nonneg h) (Nat.cast_nonneg _)

theorem sampleStd_nonneg (w : List ℝ) : 0 ≤ sampleStd w := Real.sqrt_nonneg _

theorem drop_30_concat (c d : ℝ) :
    (List.replicate 49 c ++ [d]).drop 30 = List.replicate 19 c ++ [d] := by
  rw [List.drop_append_eq_append_drop]
  simp [List.drop_replicate]

theorem listMean_19_100_101 :
    listMean (List.replicate 19 (100 : ℝ) ++ [101]) = 2001 / 20 := by
  rw [listMean]
  simp only [List.sum_append, List.sum_replicate, List.length_append,
    List.length_replicate, List.sum_cons, List.sum_nil, List.length_cons,
    List.length_nil, nsmul_eq_mul]
  norm_num

theorem sampleStd_19_100_101 :
    sampleStd (List.replicate 19 (100 : ℝ) ++ [101]) = Real.sqrt (1 / 20) := by
  rw [sampleStd, listMean_19_100_101]
  simp only [List.map_append, List.map_replicate, List.map_cons, List.map_nil,
    List.sum_append, List.sum_replicate, List.sum_cons, List.sum_nil,
    List.length_append, List.length_replicate, List.length_cons, List.length_nil,
    nsmul_eq_mul]
  norm_num

theorem listMean_19_0_100 :
    listMean (List.replicate 19 (0 : ℝ) ++ [100]) = 5 := by
  rw [listMean]
  simp only [List.sum_append, List.sum_replicate, List.length_append,
    List.length_replicate, List.sum_cons, List.sum_nil, List.length_cons,
    List.length_nil, nsmul_eq_mul]
  norm_num

/-! ## The concrete test series -/

theorem length_testDf (hi : ℝ) : (testDf hi).length = 50 := by simp [testDf]

theorem testDf_ne_nil (hi : ℝ) : testDf hi ≠ [] :=
  List.ne_nil_of_length_pos (by rw [length_testDf]; omega)

theorem closes_testDf (hi : ℝ) :
    closes (testDf hi) = List.replicate 49 (100 : ℝ) ++ [101] := by
  simp [closes, testDf]

theorem highs_testDf (hi : ℝ) : highs (testDf hi) = List.replicate 50 hi := by
  simp [highs, testDf]

theorem lows_testDf (hi : ℝ) : lows (testDf hi) = List.replicate 50 (0 : ℝ) := by
  simp [lows, testDf]

theorem volumes_testDf (hi : ℝ) :
    volumes (testDf hi) = List.replicate 49 (0 : ℝ) ++ [100] := by
  simp [volumes, testDf]

theorem ewm_closes_testDf (s : ℕ) (hi : ℝ) :
    ewm s (closes (testDf hi)) =
      List.replicate 49 (100 : ℝ) ++ [100 + 2 / ((s : ℝ) + 1)] := by
  rw [closes_testDf]
  have h := ewm_replicate_concat s (100 : ℝ) 101 48
  norm_num at h
  rw [h]

theorem smaSeries_testDf (hi : ℝ) :
    (smaSeries 20 (testDf hi)).getLastD none = some (2001 / 20) := by
  rw [smaSeries_getLastD _ _ (testDf_ne_nil hi) (by rw [length_testDf]; omega),
    closes_testDf, length_testDf]
  norm_num [drop_30_concat, listMean_19_100_101]

theorem stdSeries_testDf (hi : ℝ) :
    (stdSeries 20 (testDf hi)).getLastD none = some (Real.sqrt (1 / 20)) := by
  rw [stdSeries_getLastD _ _ (testDf_ne_nil hi) (by rw [length_testDf]; omega),
    closes_testDf, length_testDf]
  norm_num [drop_30_concat, sampleStd_19_100_101]

theorem atrSeries_testDf (hi : ℝ) :
    (atrSeries 20 (testDf hi)).getLastD none = some hi := by
  rw [atrSeries_getLastD _ _ (testDf_ne_nil hi) (by rw [length_testDf]; omega),
    highs_testDf, lows_testDf, length_testDf, zipWith_replicate']
  norm_num [List.drop_replicate]
  exact listMean_replicate 20 (by omega) hi

theorem volAvg_testDf (hi : ℝ) :
    (volAvg 20 (testDf hi)).getLastD none = some 5 := by
  rw [volAvg_getLastD _ _ (testDf_ne_nil hi) (by rw [length_testDf]; omega),
    volumes_testDf, length_testDf]
  norm_num [drop_30_concat, listMean_19_0_100]

theorem emaSeries_testDf (hi : ℝ) :
    (emaSeries 20 (testDf hi)).getLastD 0 = 2102 / 21 := by
  rw [emaSeries, ewm_closes_testDf]
  rw [getLastD_of_getLast? (List.getLast?_concat _)]
  norm_num

theorem macdSeries_testDf (hi : ℝ) :
    macdSeries (testDf hi) = List.replicate 49 (0 : ℝ) ++ [28 / 351] := by
  rw [macdSeries, ewm_closes_testDf 12 hi, ewm_closes_testDf 26 hi,
    List.zipWith_append _ _ _ _ _ (by simp), zipWith_replicate']
  norm_num

theorem signalSeries_testDf (hi : ℝ) :
    signalSeries (testDf hi) = List.replicate 49 (0 : ℝ) ++ [28 / 1755] := by
  rw [signalSeries, macdSeries_testDf]
  have h := ewm_replicate_concat 9 (0 : ℝ) (28 / 351) 48
  norm_num at h
  rw [h]

theorem macdBull_testDf (hi : ℝ) : (macdBull (testDf hi)).getLastD false = true := by
  rw [macdBull_getLastD _ (testDf_ne_nil hi), macdSeries_testDf, signalSeries_testDf,
    getLastD_of_getLast? (List.getLast?_concat _), getLastD_of_getLast? (List.getLast?_concat _)]
  rw [rltB_eq_true]
  norm_num

theorem highVol_testDf (hi : ℝ) :
    (highVol 20 1.5 (testDf hi)).getLastD false = true := by
  rw [highVol_getLastD _ _ _ (testDf_ne_nil hi), volAvg_testDf, volumes_testDf,
    getLastD_of_getLast? (List.getLast?_concat _)]
  simp only [Option.map_some']
  rw [ogtB, oltB, rltB_eq_true]
  norm_num

theorem inSqueeze_testDf (hi kcm : ℝ) :
    (inSqueeze 20 2 kcm (testDf hi)).getLastD false =
      (rltB (2102 / 21 - kcm * hi) (2001 / 20 - 2 * Real.sqrt (1 / 20)) &&
        rltB (2001 / 20 + 2 * Real.sqrt (1 / 20)) (2102 / 21 + kcm * hi)) := by
  rw [inSqueeze_getLastD _ _ _ _ (testDf_ne_nil hi),
    bbLower_getLastD _ _ _ (testDf_ne_nil hi),
    bbUpper_getLastD _ _ _ (testDf_ne_nil hi),
    kcLower_getLastD _ _ _ (testDf_ne_nil hi),
    kcUpper_getLastD _ _ _ (testDf_ne_nil hi),
    smaSeries_testDf, stdSeries_testDf, atrSeries_testDf, emaSeries_testDf]
  simp [ogtB, oltB, Option.some_bind]

theorem sqrt_inv20_lt_one : Real.sqrt (1 / 20) < 1 := by
  rw [Real.sqrt_lt' one_pos]
  norm_num

theorem sqrt_inv20_lt_04 : Real.sqrt (1 / 20) < 2 / 5 := by
  rw [Real.sqrt_lt' (by norm_num)]
  norm_num

theorem sqrt_inv20_ge : (17 : ℝ) / 84 ≤ Real.sqrt (1 / 20) := by
  rw [Real.le_sqrt (by norm_num) (by norm_num)]
  norm_num

theorem inSqueeze_testDf_10 : (inSqueeze 20 2 1.5 (testDf 10)).getLastD false = true := by
  rw [inSqueeze_testDf, Bool.and_eq_true, rltB_eq_true, rltB_eq_true]
  have hs := sqrt_inv20_lt_one
  have hn := Real.sqrt_nonneg (1 / 20 : ℝ)
  constructor <;> linarith

theorem inSqueeze_testDf_03_15 :
    (inSqueeze 20 2 1.5 (testDf (3 / 10))).getLastD false = false := by
  rw [inSqueeze_testDf]
  have hs := sqrt_inv20_ge
  have h1 : rltB (2102 / 21 - 1.5 * (3 / 10)) (2001 / 20 - 2 * Real.sqrt (1 / 20)) = false := by
    rw [rltB_eq_false]
    linarith
  rw [h1, Bool.false_and]

theorem inSqueeze_testDf_03_3 :
    (inSqueeze 20 2 3 (testDf (3 / 10))).getLastD false = true := by
  rw [inSqueeze_testDf, Bool.and_eq_true, rltB_eq_true, rltB_eq_true]
  have hs := sqrt_inv20_lt_04
  have hn := Real.sqrt_nonneg (1 / 20 : ℝ)
  constructor <;> linarith

theorem pyInt_100 : pyInt (100 : ℝ) = 100 := by
  rw [pyInt, if_pos (by norm_num)]
  rw [show ((100 : ℝ)) = ((100 : ℤ) : ℝ) by norm_num, Int.floor_intCast]

theorem calc_testDf (hi kcm : ℝ) :
    calculate_squeeze (testDf hi) 20 2 kcm 1.5 =
      ((inSqueeze 20 2 kcm (testDf hi)).getLastD false,
        .sig 101 100 ((inSqueeze 20 2 kcm (testDf hi)).getLastD false) true true
          ((inSqueeze 20 2 kcm (testDf hi)).getLastD false)) := by
  rw [calculate_squeeze_of_le _ _ _ _ _ (by rw [length_testDf]; omega),
    squeezeSignal_getLastD _ _ _ _ _ (testDf_ne_nil hi), highVol_testDf hi,
    macdBull_testDf hi, closes_testDf, volumes_testDf,
    getLastD_of_getLast? (List.getLast?_concat _),
    getLastD_of_getLast? (List.getLast?_concat _), pyInt_100]
  simp

/-! ## Constant (zero-volatility) series -/

theorem getLastD_replicate {α : Type _} (n : ℕ) (hn : 0 < n) (a d : α) :
    (List.replicate n a).getLastD d = a := by
  obtain ⟨m, rfl⟩ : ∃ m, n = m + 1 := ⟨n - 1, by omega⟩
  rw [List.replicate_succ', getLastD_of_getLast? (List.getLast?_concat _)]

theorem inSqueeze_const (L : ℕ) (hL : 1 ≤ L) (c v bb kc : ℝ) :
    (inSqueeze L bb kc (List.replicate (L + 26) ⟨c, c, c, v⟩)).getLastD false = false := by
  have hne : (List.replicate (L + 26) (⟨c, c, c, v⟩ : Candle)) ≠ [] :=
    List.ne_nil_of_length_pos (by simp)
  have hlen : (List.replicate (L + 26) (⟨c, c, c, v⟩ : Candle)).length = L + 26 := by simp
  have hcl : closes (List.replicate (L + 26) ⟨c, c, c, v⟩) = List.replicate (L + 26) c := by
    simp [closes]
  have hhi : highs (List.replicate (L + 26) ⟨c, c, c, v⟩) = List.replicate (L + 26) c := by
    simp [highs]
  have hlo : lows (List.replicate (L + 26) ⟨c, c, c, v⟩) = List.replicate (L + 26) c := by
    simp [lows]
  have hsma : (smaSeries L (List.replicate (L + 26) ⟨c, c, c, v⟩)).getLastD none = some c := by
    rw [smaSeries_getLastD _ _ hne (by omega), hcl, hlen]
    rw [List.drop_replicate]
    rw [show L + 26 - (L + 26 - L) = L by omega, listMean_replicate L hL c]
  have hstd : (stdSeries L (List.replicate (L + 26) ⟨c, c, c, v⟩)).getLastD none = some 0 := by
    rw [stdSeries_getLastD _ _ hne (by omega), hcl, hlen]
    rw [List.drop_replicate]
    rw [show L + 26 - (L + 26 - L) = L by omega, sampleStd_replicate L hL c]
  have hatr : (atrSeries L (List.replicate (L + 26) ⟨c, c, c, v⟩)).getLastD none = some 0 := by
    rw [atrSeries_getLastD _ _ hne (by omega), hhi, hlo, hlen, zipWith_replicate']
    rw [List.drop_replicate]
    rw [show L + 26 - (L + 26 - L) = L by omega]
    rw [show c - c = (0 : ℝ) by ring, listMean_replicate L hL 0]
  have hema : (emaSeries L (List.replicate (L + 26) ⟨c, c, c, v⟩)).getLastD 0 = c := by
    rw [emaSeries, hcl, ewm_replicate, getLastD_replicate _ (by omega)]
  rw [inSqueeze_getLastD _ _ _ _ hne, bbLower_getLastD _ _ _ hne, bbUpper_getLastD _ _ _ hne,
    kcLower_getLastD _ _ _ hne, kcUpper_getLastD _ _ _ hne, hsma, hstd, hatr, hema]
  simp only [Option.some_bind, Option.map_some', ogtB, oltB]
  have h0 : rltB c c = false := by
    rw [rltB_eq_false]
  simp [h0]

/-! ## Dictionary (snapshot) operations -/

theorem lookup_dictInsert_self (k : String) (v : Entry) (s : Snapshot) :
    (dictInsert k v s).lookup k = some v := by
  induction s with
  | nil => simp [dictInsert, List.lookup]
  | cons p rest ih =>
    obtain ⟨k', v'⟩ := p
    by_cases h : k' = k
    · subst h
      simp [dictInsert, List.lookup]
    · rw [dictInsert, if_neg h, List.lookup]
      have : (k == k') = false := by simp [beq_iff_eq]; exact Ne.symm h
      rw [this]
      exact ih

theorem lookup_dictInsert_ne (k k' : String) (v : Entry) (s : Snapshot) (h : k' ≠ k) :
    (dictInsert k v s).lookup k' = s.lookup k' := by
  induction s with
  | nil =>
    have hb : (k' == k) = false := by simp [beq_iff_eq, h]
    simp [dictInsert, List.lookup, hb]
  | cons p rest ih =>
    obtain ⟨k'', v''⟩ := p
    by_cases he : k'' = k
    · subst he
      rw [dictInsert, if_pos rfl, List.lookup, List.lookup]
      have : (k' == k'') = false := by simp [beq_iff_eq, h]
      rw [this]
    · rw [dictInsert, if_neg he, List.lookup, List.lookup]
      cases hbe : (k' == k'') with
      | true => rfl
      | false => exact ih

theorem keys_dictInsert (k : String) (v : Entry) (s : Snapshot) :
    (dictInsert k v s).map Prod.fst =
      if k ∈ s.map Prod.fst then s.map Prod.fst else s.map Prod.fst ++ [k] := by
  induction s with
  | nil => simp [dictInsert]
  | cons p rest ih =>
    obtain ⟨k', v'⟩ := p
    by_cases h : k' = k
    · subst h
      simp [dictInsert]
    · rw [dictInsert, if_neg h]
      by_cases hm : k ∈ rest.map Prod.fst
      · simp only [List.map_cons, ih, if_pos hm]
        rw [if_pos (by simp [hm])]
      · simp only [List.map_cons, ih, if_neg hm]
        rw [if_neg (by simp [hm, Ne.symm h])]
        rfl

theorem nodup_keys_dictInsert (k : String) (v : Entry) (s : Snapshot)
    (h : (s.map Prod.fst).Nodup) : ((dictInsert k v s).map Prod.fst).Nodup := by
  rw [keys_dictInsert]
  split_ifs with hm
  · exact h
  · rw [List.nodup_append]
    exact ⟨h, List.nodup_singleton k, by
      intro x hx hx'
      simp at hx'
      subst hx'
      exact hm hx⟩

theorem keys_dictInsert_sub (k : String) (v : Entry) (s : Snapshot) (x : String)
    (hx : x ∈ (dictInsert k v s).map Prod.fst) : x ∈ s.map Prod.fst ∨ x = k := by
  rw [keys_dictInsert] at hx
  split_ifs at hx with hm
  · exact Or.inl hx
  · rcases List.mem_append.mp hx with h | h
    · exact Or.inl h
    · simp at h
      exact Or.inr h

/-! ## The scan loop -/

theorem scan_foldl_fst_lookup (fetch : String → Option Df) (now : String)
    (tickers : List String) (s0 : Snapshot) (al : List (String × ℝ)) (k : String) :
    ((tickers.foldl (scanStep fetch now) (s0, al)).1).lookup k =
      if k ∈ tickers.map normalizeTicker then some (scanEntry fetch now k)
      else s0.lookup k := by
  induction tickers generalizing s0 al with
  | nil => simp
  | cons t ts ih =>
    rw [List.foldl_cons]
    show ((ts.foldl (scanStep fetch now)
      (dictInsert (normalizeTicker t) (scanEntry fetch now (normalizeTicker t)) s0,
        al ++ (scanAlert fetch (normalizeTicker t)).toList)).1).lookup k = _
    rw [ih]
    by_cases hk : k ∈ ts.map normalizeTicker
    · rw [if_pos hk, if_pos (by simp [hk])]
    · by_cases he : k = normalizeTicker t
      · rw [if_neg hk, if_pos (by simp [he]), he, lookup_dictInsert_self]
      · rw [if_neg hk, if_neg (by simp [hk, he]), lookup_dictInsert_ne _ _ _ _ he]

theorem scan_foldl_snd (fetch : String → Option Df) (now : String)
    (tickers : List String) (s0 : Snapshot) (al : List (String × ℝ)) :
    (tickers.foldl (scanStep fetch now) (s0, al)).2 =
      al ++ (tickers.map normalizeTicker).filterMap (fun k => scanAlert fetch k) := by
  induction tickers generalizing s0 al with
  | nil => simp
  | cons t ts ih =>
    rw [List.foldl_cons]
    show (ts.foldl (scanStep fetch now)
      (dictInsert (normalizeTicker t) (scanEntry fetch now (normalizeTicker t)) s0,
        al ++ (scanAlert fetch (normalizeTicker t)).toList)).2 = _
    rw [ih, List.map_cons, List.filterMap_cons]
    cases h : scanAlert fetch (normalizeTicker t) <;> simp [h]

theorem scan_foldl_keys_nodup (fetch : String → Option Df) (now : String)
    (tickers : List String) (s0 : Snapshot) (al : List (String × ℝ))
    (h : (s0.map Prod.fst).Nodup) :
    (((tickers.foldl (scanStep fetch now) (s0, al)).1).map Prod.fst).Nodup := by
  induction tickers generalizing s0 al with
  | nil => exact h
  | cons t ts ih =>
    rw [List.foldl_cons]
    exact ih _ _ (nodup_keys_dictInsert _ _ _ h)

theorem scan_foldl_keys_sub (fetch : String → Option Df) (now : String)
    (tickers : List String) (s0 : Snapshot) (al : List (String × ℝ)) (x : String)
    (hx : x ∈ ((tickers.foldl (scanStep fetch now) (s0, al)).1).map Prod.fst) :
    x ∈ s0.map Prod.fst ∨ x ∈ tickers.map normalizeTicker := by
  induction tickers generalizing s0 al with
  | nil => exact Or.inl hx
  | cons t ts ih =>
    rw [List.foldl_cons] at hx
    rcases ih _ _ hx with h | h
    · rcases keys_dictInsert_sub _ _ _ _ h with h' | h'
      · exact Or.inl h'
      · exact Or.inr (by simp [h'])
    · exact Or.inr (by simp [h])

theorem scan_markets_lookup (tickers : List String) (fetch : String → Option Df)
    (now : String) (k : String) :
    ((scan_markets tickers fetch now).1).lookup k =
      if k ∈ tickers.map normalizeTicker then some (scanEntry fetch now k) else none := by
  rw [scan_markets, scan_foldl_fst_lookup]
  rfl

theorem scan_markets_alerts (tickers : List String) (fetch : String → Option Df)
    (now : String) :
    (scan_markets tickers fetch now).2 =
      (tickers.map normalizeTicker).filterMap (fun k => scanAlert fetch k) := by
  rw [scan_markets, scan_foldl_snd]
  rfl

theorem scanAlert_key {fetch : String → Option Df} {k s : String} {p : ℝ}
    (h : scanAlert fetch k = some (s, p)) : k = s := by
  rw [scanAlert] at h
  cases hf : fetch k with
  | none => rw [hf] at h; exact absurd h (by simp)
  | some df =>
    rw [hf] at h
    by_cases h1 : df.length < 50
    · simp [h1] at h
    · by_cases h2 : (calculate_squeeze df 20 2 1.5 1.5).1 = true
      · simp [h1, h2] at h
        exact h.1
      · simp [h1, h2] at h

/-! ## Sign facts about the rolling statistics -/

theorem window_subset {L : ℕ} {xs : List ℝ} {i : ℕ} {w : List ℝ}
    (hw : window L xs i = some w) : ∀ x ∈ w, x ∈ xs := by
  rw [window] at hw
  split_ifs at hw with h
  intro x hx
  rw [← Option.some_inj.mp hw] at hx
  exact List.mem_of_mem_take (List.mem_of_mem_drop hx)

theorem rollingApply_getLastD_some {f : List ℝ → ℝ} {L : ℕ} {xs : List ℝ} {v : ℝ}
    (hne : xs ≠ []) (h : (rollingApply f L xs).getLastD none = some v) :
    ∃ w, window L xs (xs.length - 1) = some w ∧ v = f w := by
  have hpos : 0 < (rollingApply f L xs).length := by
    simp [List.length_pos.mpr hne]
  obtain ⟨x, hx⟩ := exists_getLast? (List.ne_nil_of_length_pos hpos)
  rw [getLastD_of_getLast? hx] at h
  subst h
  obtain ⟨n, hn⟩ : ∃ n, xs.length = n + 1 := by
    cases xs with
    | nil => exact absurd rfl hne
    | cons y t => exact ⟨t.length, rfl⟩
  rw [rollingApply, hn, List.range_succ, List.map_append] at hx
  simp only [List.map_cons, List.map_nil, List.getLast?_concat] at hx
  have hx' := Option.some_inj.mp hx
  cases hw : window L xs n with
  | none => rw [hw] at hx'; simp at hx'
  | some w =>
    rw [hw] at hx'
    simp at hx'
    refine ⟨w, ?_, hx'.symm⟩
    rw [hn]
    simpa using hw

theorem stdSeries_last_nonneg {df : Df} {L : ℕ} {sd : ℝ} (hne : df ≠ [])
    (h : (stdSeries L df).getLastD none = some sd) : 0 ≤ sd := by
  rw [stdSeries, rollingStd] at h
  obtain ⟨w, hw, hv⟩ := rollingApply_getLastD_some
    (ne_nil_of_length_eq (length_closes df) (List.length_pos.mpr hne)) h
  rw [hv]
  exact sampleStd_nonneg w

theorem highs_lows_sub_nonneg {df : Df} (hlo : ∀ cd ∈ df, cd.low ≤ cd.high) :
    ∀ x ∈ List.zipWith (· - ·) (highs df) (lows df), 0 ≤ x := by
  induction df with
  | nil => simp [highs, lows]
  | cons cd rest ih =>
    intro x hx
    rw [highs, lows, List.map_cons, List.map_cons, List.zipWith_cons_cons] at hx
    rcases List.mem_cons.mp hx with h | h
    · rw [h]
      exact sub_nonneg.mpr (hlo cd (List.mem_cons_self cd rest))
    · exact ih (fun c hc => hlo c (List.mem_cons_of_mem cd hc)) x h

theorem atrSeries_last_nonneg {df : Df} {L : ℕ} {a : ℝ} (hne : df ≠ [])
    (hlo : ∀ cd ∈ df, cd.low ≤ cd.high)
    (h : (atrSeries L df).getLastD none = some a) : 0 ≤ a := by
  rw [atrSeries, rollingMean] at h
  have hlen : (List.zipWith (· - ·) (highs df) (lows df)).length = df.length := by simp
  obtain ⟨w, hw, hv⟩ := rollingApply_getLastD_some
    (ne_nil_of_length_eq hlen (List.length_pos.mpr hne)) h
  rw [hv]
  exact listMean_nonneg w (fun x hx => highs_lows_sub_nonneg hlo x (window_subset hw x hx))

/-! ## Alerts versus recorded entries -/

theorem scanAlert_iff_entry (fetch : String → Option Df) (now s : String) (p : ℝ) :
    scanAlert fetch s = some (s, p) ↔
      ∃ v isq hv mb, scanEntry fetch now s =
        .stamped (.sig p v isq hv mb true) now := by
  constructor
  · intro h
    rw [scanAlert] at h
    cases hf : fetch s with
    | none => rw [hf] at h; simp at h
    | some df =>
      rw [hf] at h
      by_cases h1 : df.length < 50
      · simp [h1] at h
      · by_cases h2 : (calculate_squeeze df 20 2 1.5 1.5).1 = true
        · simp only [if_neg h1, if_pos h2] at h
          have hp : (calculate_squeeze df 20 2 1.5 1.5).2.priceOf = p := by
            have := Option.some_inj.mp h
            exact congrArg Prod.snd this
          have hle : 20 + 26 ≤ df.length := by omega
          have hc := calculate_squeeze_of_le df 20 2 1.5 1.5 hle
          rw [hc] at h2 hp
          simp only [SqueezeDetails.priceOf] at hp
          refine ⟨pyInt ((volumes df).getLastD 0),
            (inSqueeze 20 2 1.5 df).getLastD false,
            (highVol 20 1.5 df).getLastD false,
            (macdBull df).getLastD false, ?_⟩
          simp only [scanEntry, hf]
          rw [if_neg h1, hc]
          simp only at h2
          rw [hp, h2]
        · simp [h1, h2] at h
  · rintro ⟨v, isq, hv, mb, he⟩
    rw [scanEntry] at he
    cases hf : fetch s with
    | none => simp only [hf] at he; simp at he
    | some df =>
      simp only [hf] at he
      by_cases h1 : df.length < 50
      · rw [if_pos h1] at he
        simp at he
      · rw [if_neg h1] at he
        simp only [Entry.stamped.injEq] at he
        have h2 : (calculate_squeeze df 20 2 1.5 1.5).2 = .sig p v isq hv mb true := he.1
        have hle : 20 + 26 ≤ df.length := by omega
        have hc := calculate_squeeze_of_le df 20 2 1.5 1.5 hle
        rw [hc] at h2
        simp only [SqueezeDetails.sig.injEq] at h2
        have hfst : (calculate_squeeze df 20 2 1.5 1.5).1 = true := by
          rw [hc]
          exact h2.2.2.2.2.2
        rw [scanAlert]
        simp only [hf]
        rw [if_neg h1, if_pos hfst, hc]
        simp only [SqueezeDetails.priceOf]
        rw [h2.1]

/-! ## Remaining helpers -/

theorem scanEntry_noData (fetch : String → Option Df) (now k : String)
    (h : fetch k = none ∨ ∃ df, fetch k = some df ∧ df.length < 50) :
    scanEntry fetch now k = .errNoData msgNoData := by
  rcases h with h | ⟨df, hf, hl⟩
  · rw [scanEntry]
    simp only [h]
  · rw [scanEntry]
    simp only [hf]
    rw [if_pos hl]

theorem testDf_lo (hi : ℝ) (h : 0 ≤ hi) : ∀ cd ∈ testDf hi, cd.low ≤ cd.high := by
  intro cd hcd
  rw [testDf] at hcd
  rcases List.mem_append.mp hcd with hm | hm
  · rw [List.eq_of_mem_replicate hm]
    exact h
  · simp at hm
    rw [hm]
    exact h

theorem scanEntry_testDf10 (now k : String) :
    scanEntry (fun _ => some (testDf 10)) now k =
      .stamped (SqueezeDetails.sig 101 100 true true true true) now := by
  rw [scanEntry]
  simp only
  rw [if_neg (by rw [length_testDf]; omega), calc_testDf 10 1.5, inSqueeze_testDf_10]

theorem scanAlert_testDf10 (k : String) :
    scanAlert (fun _ => some (testDf 10)) k = some (k, 101) := by
  rw [scanAlert]
  simp only
  rw [if_neg (by rw [length_testDf]; omega)]
  have hfst : (calculate_squeeze (testDf 10) 20 2 1.5 1.5).1 = true := by
    rw [calc_testDf 10 1.5, inSqueeze_testDf_10]
  rw [if_pos hfst, calc_testDf 10 1.5, inSqueeze_testDf_10]
  rfl

/-! ## Claims -/

/-- C1: for every series with length at least `L + 26` (well-formed numeric data
being implicit in the real-valued model), `calculate_squeeze` returns a Signal
dictionary whose `signal` field equals the conjunction
`in_squeeze && high_volume && macd_bullish` of the three boolean fields of the
same returned dictionary; in particular `signal` is never true unless all three
booleans are true. -/
theorem C1_fusion_consistency (df : Df) (L : ℕ) (bb kc vol : ℝ)
    (h : L + 26 ≤ df.length) :
    ∃ p v isq hv mb, (calculate_squeeze df L bb kc vol).2 =
      SqueezeDetails.sig p v isq hv mb (isq && hv && mb) := by
  have hne : df ≠ [] := List.ne_nil_of_length_pos (by omega)
  rw [calculate_squeeze_of_le df L bb kc vol h]
  refine ⟨(closes df).getLastD 0, pyInt ((volumes df).getLastD 0),
    (inSqueeze L bb kc df).getLastD false, (highVol L vol df).getLastD false,
    (macdBull df).getLastD false, ?_⟩
  rw [squeezeSignal_getLastD df L bb kc vol hne]

theorem C1_fusion_consistency_witness :
    20 + 26 ≤ (testDf 10).length ∧
      ∃ p v isq hv mb, (calculate_squeeze (testDf 10) 20 2 1.5 1.5).2 =
        SqueezeDetails.sig p v isq hv mb (isq && hv && mb) :=
  ⟨by rw [length_testDf]; omega,
    C1_fusion_consistency (testDf 10) 20 2 1.5 1.5 (by rw [length_testDf]; omega)⟩

/-- C2 counterexample: on a concrete 10-candle series (shorter than `L + 26 = 46`)
`calculate_squeeze` does not return an error dictionary with message
"insufficient data" — it returns `(False, {})`, the empty dictionary. -/
theorem C2_counterexample :
    (calculate_squeeze (List.replicate 10 ⟨1, 1, 1, 1⟩) 20 2 1.5 1.5).2 ≠
      SqueezeDetails.err msgInsufficient := by
  rw [calculate_squeeze_of_lt _ _ _ _ _ (by norm_num)]
  simp

/-- C2 amended: for every series shorter than `L + 26`, `calculate_squeeze`
returns `(False, {})` — the boolean false paired with the empty dictionary
(no error flag, no message) — and in particular never a Signal dictionary. -/
theorem C2_amended_insufficient (df : Df) (L : ℕ) (bb kc vol : ℝ)
    (h : df.length < L + 26) :
    calculate_squeeze df L bb kc vol = (false, SqueezeDetails.empty) :=
  calculate_squeeze_of_lt df L bb kc vol h

theorem C2_amended_insufficient_witness :
    (List.replicate 10 (⟨2, 3, 1, 4⟩ : Candle)).length < 20 + 26 ∧
      calculate_squeeze (List.replicate 10 ⟨2, 3, 1, 4⟩) 20 2 1.5 1.5 =
        (false, SqueezeDetails.empty) :=
  ⟨by norm_num, C2_amended_insufficient _ _ _ _ _ (by norm_num)⟩

/-- C9: a read of the snapshot store before the first publish returns the empty
mapping — `squeeze_data` is initialized to `{}` and `get_signals` returns a copy
of it. -/
theorem C9_initial_read_empty : get_signals squeeze_data_init = ([] : Snapshot) := rfl

/-- C10: any series that passes the orchestrator's 50-sample guard also passes the
engine's `len(df) < L + 26` guard with the default `L = 20` (since `46 ≤ 50`), so
the insufficient-data branch of `calculate_squeeze` — returning the empty dict —
is unreachable through the pipeline with default parameters. -/
theorem C10_insufficient_branch_unreachable (df : Df) (h : 50 ≤ df.length) :
    (calculate_squeeze df 20 2 1.5 1.5).2 ≠ SqueezeDetails.empty := by
  rw [calculate_squeeze_of_le df 20 2 1.5 1.5 (by omega)]
  simp

theorem C10_insufficient_branch_unreachable_witness :
    50 ≤ (List.replicate 50 (⟨1, 2, 0, 3⟩ : Candle)).length ∧
      (calculate_squeeze (List.replicate 50 ⟨1, 2, 0, 3⟩) 20 2 1.5 1.5).2 ≠
        SqueezeDetails.empty :=
  ⟨by norm_num, C10_insufficient_branch_unreachable _ (by norm_num)⟩

/-- C8: a series of exactly `L + 26` zero-volatility candles (high = low = close
constant, volume constant) yields a Signal dictionary with `in_squeeze = false`:
the standard deviation and the average true range are both zero, both band pairs
collapse to a single point, and the squeeze comparison is strict. -/
theorem C8_zero_volatility (L : ℕ) (hL : 1 ≤ L) (c v bb kc vol : ℝ) :
    ∃ p vol' hv mb s,
      (calculate_squeeze (List.replicate (L + 26) ⟨c, c, c, v⟩) L bb kc vol).2 =
        SqueezeDetails.sig p vol' false hv mb s := by
  rw [calculate_squeeze_of_le _ _ _ _ _ (by simp)]
  rw [inSqueeze_const L hL c v bb kc]
  exact ⟨_, _, _, _, _, rfl⟩

theorem C8_zero_volatility_witness :
    1 ≤ 20 ∧ ∃ p vol' hv mb s,
      (calculate_squeeze (List.replicate (20 + 26) ⟨7, 7, 7, 3⟩) 20 2 1.5 1.5).2 =
        SqueezeDetails.sig p vol' false hv mb s :=
  ⟨by norm_num, C8_zero_volatility 20 (by norm_num) 7 3 2 1.5 1.5⟩

/-- C3: one scan builds a fresh snapshot that replaces the previous store value
wholesale (`publish` ignores the previous snapshot); a reader sees exactly the
previous snapshot before the publish and exactly the new one after it (the
lock-guarded assignment and copy are atomic); the new snapshot holds exactly one
entry per configured instrument: every configured ticker has an entry, keys are
free of duplicates, and every key comes from the configuration. -/
theorem C3_snapshot_wholesale (prev : Snapshot) (tickers : List String)
    (fetch : String → Option Df) (now : String) :
    publish prev (scan_markets tickers fetch now).1 = (scan_markets tickers fetch now).1 ∧
    get_signals (publish prev (scan_markets tickers fetch now).1) =
      (scan_markets tickers fetch now).1 ∧
    get_signals prev = prev ∧
    (∀ t ∈ tickers, ((scan_markets tickers fetch now).1).lookup (normalizeTicker t) =
      some (scanEntry fetch now (normalizeTicker t))) ∧
    (((scan_markets tickers fetch now).1).map Prod.fst).Nodup ∧
    (∀ k ∈ ((scan_markets tickers fetch now).1).map Prod.fst,
      k ∈ tickers.map normalizeTicker) := by
  refine ⟨rfl, rfl, rfl, ?_, ?_, ?_⟩
  · intro t ht
    rw [scan_markets_lookup, if_pos (List.mem_map.mpr ⟨t, ht, rfl⟩)]
  · rw [scan_markets]
    exact scan_foldl_keys_nodup fetch now tickers [] [] (by simp)
  · intro k hk
    rw [scan_markets] at hk
    rcases scan_foldl_keys_sub fetch now tickers [] [] k hk with h | h
    · simp at h
    · exact h

/-- C4 counterexample: when the fetch returns Absent for a configured symbol, the
recorded error dictionary's message is "No data available" (capital N, as written
on line 130), not the lowercase "no data available" asserted by the claim. -/
theorem C4_counterexample :
    ((scan_markets [tkA] (fun _ => none) tsT0).1).lookup (normalizeTicker tkA) ≠
      some (Entry.errNoData msgNoDataClaim) := by
  rw [scan_markets_lookup, if_pos (by simp)]
  rw [scanEntry_noData _ _ _ (Or.inl rfl)]
  intro h
  have hmsg : msgNoData = msgNoDataClaim := (Entry.errNoData.injEq _ _).mp
    (Option.some_inj.mp h)
  rw [msgNoData, msgNoDataClaim] at hmsg
  exact absurd hmsg (by decide)

/-- C4 amended: for every configured symbol whose fetch is Absent or whose
normalized series has fewer than 50 samples, the scan records the error
dictionary with message "No data available" (and its `signal` field is false). -/
theorem C4_amended_noData (tickers : List String) (fetch : String → Option Df)
    (now : String) (t : String) (ht : t ∈ tickers)
    (hf : fetch (normalizeTicker t) = none ∨
      ∃ df, fetch (normalizeTicker t) = some df ∧ df.length < 50) :
    ((scan_markets tickers fetch now).1).lookup (normalizeTicker t) =
      some (Entry.errNoData msgNoData) ∧
    (Entry.errNoData msgNoData).signalField = some false := by
  constructor
  · rw [scan_markets_lookup, if_pos (List.mem_map.mpr ⟨t, ht, rfl⟩),
      scanEntry_noData _ _ _ hf]
  · rfl

theorem C4_amended_noData_witness :
    tkA ∈ [tkA] ∧
      (((scan_markets [tkA] (fun _ => none) tsT0).1).lookup (normalizeTicker tkA) =
        some (Entry.errNoData msgNoData) ∧
      (Entry.errNoData msgNoData).signalField = some false) :=
  ⟨List.mem_cons_self tkA [],
    C4_amended_noData [tkA] (fun _ => none) tsT0 tkA (List.mem_cons_self tkA [])
      (Or.inl rfl)⟩

/-- C5: one instrument's failure never prevents processing of the others — every
configured ticker ends the scan with a recorded entry, whatever the fetch oracle
does for any ticker — and any fault raised inside `calculate_squeeze`'s body is
caught by the `except` clause and recorded as an error dictionary carrying the
fault's description. -/
theorem C5_fault_isolation (tickers : List String) (fetch : String → Option Df)
    (now : String) (t : String) (ht : t ∈ tickers) (e : String) :
    (∃ d, ((scan_markets tickers fetch now).1).lookup (normalizeTicker t) = some d) ∧
    squeeze_catch (Except.error e) = (false, SqueezeDetails.err e) := by
  refine ⟨⟨scanEntry fetch now (normalizeTicker t), ?_⟩, rfl⟩
  rw [scan_markets_lookup, if_pos (List.mem_map.mpr ⟨t, ht, rfl⟩)]

theorem C5_fault_isolation_witness :
    tkOk ∈ [tkBad, tkOk] ∧
      ((∃ d, ((scan_markets [tkBad, tkOk] (fun _ => none) tsT0).1).lookup
          (normalizeTicker tkOk) = some d) ∧
        squeeze_catch (Except.error eBoom) = (false, SqueezeDetails.err eBoom)) :=
  ⟨List.mem_cons_of_mem tkBad (List.mem_cons_self tkOk []),
    C5_fault_isolation [tkBad, tkOk] (fun _ => none) tsT0 tkOk
      (List.mem_cons_of_mem tkBad (List.mem_cons_self tkOk [])) eBoom⟩

/-- C6 counterexample: on a concrete 50-candle series, raising the Keltner
multiplier from its default 1.5 to 3 (all else fixed) flips the returned
`in_squeeze` field from false to true — widening the `kc` multiplier widens the
Keltner channel, making containment easier, not harder. -/
theorem C6_counterexample :
    (calculate_squeeze (testDf (3 / 10)) 20 2 1.5 1.5).2 =
      SqueezeDetails.sig 101 100 false true true false ∧
    (calculate_squeeze (testDf (3 / 10)) 20 2 3 1.5).2 =
      SqueezeDetails.sig 101 100 true true true true := by
  constructor
  · rw [calc_testDf (3 / 10) 1.5, inSqueeze_testDf_03_15]
  · rw [calc_testDf (3 / 10) 3, inSqueeze_testDf_03_3]

/-- C6 amended: for a fixed series whose candles satisfy `low ≤ high`, the
squeeze condition at the last sample is antitone in the Bollinger multiplier and
monotone in the Keltner multiplier: if `in_squeeze` holds at `(bb', kc)` then it
holds at `(bb, kc')` whenever `bb ≤ bb'` and `kc ≤ kc'`.  So increasing `bb` can
only turn `in_squeeze` from true to false, while increasing `kc` can only turn
it from false to true — the opposite of what the claim states for `kc`. -/
theorem C6_amended_monotonicity (df : Df) (L : ℕ) (bb bb' kc kc' : ℝ)
    (hlo : ∀ cd ∈ df, cd.low ≤ cd.high) (h1 : bb ≤ bb') (h2 : kc ≤ kc')
    (h : (inSqueeze L bb' kc df).getLastD false = true) :
    (inSqueeze L bb kc' df).getLastD false = true := by
  by_cases hne : df = []
  · subst hne
    have hz : (inSqueeze L bb' kc ([] : Df)).length = 0 := by simp
    rw [List.eq_nil_of_length_eq_zero hz] at h
    simp at h
  rw [inSqueeze_getLastD _ _ _ _ hne, bbLower_getLastD _ _ _ hne,
    bbUpper_getLastD _ _ _ hne, kcLower_getLastD _ _ _ hne,
    kcUpper_getLastD _ _ _ hne] at h ⊢
  cases hsma : (smaSeries L df).getLastD none with
  | none => rw [hsma] at h; simp [ogtB, oltB] at h
  | some sm =>
    cases hstd : (stdSeries L df).getLastD none with
    | none => rw [hsma, hstd] at h; simp [ogtB, oltB] at h
    | some sd =>
      cases hatr : (atrSeries L df).getLastD none with
      | none => rw [hsma, hstd, hatr] at h; simp [ogtB, oltB] at h
      | some av =>
        rw [hsma, hstd, hatr] at h
        simp only [Option.some_bind, Option.map_some', ogtB, oltB] at h ⊢
        rw [Bool.and_eq_true, rltB_eq_true, rltB_eq_true] at h ⊢
        obtain ⟨ha, hb⟩ := h
        have hsd : 0 ≤ sd := stdSeries_last_nonneg hne hstd
        have hav : 0 ≤ av := atrSeries_last_nonneg hne hlo hatr
        have hb1 : bb * sd ≤ bb' * sd := mul_le_mul_of_nonneg_right h1 hsd
        have hk1 : kc * av ≤ kc' * av := mul_le_mul_of_nonneg_right h2 hav
        exact ⟨by linarith, by linarith⟩

theorem C6_amended_monotonicity_witness :
    (∀ cd ∈ testDf 10, cd.low ≤ cd.high) ∧ (2 : ℝ) ≤ 2 ∧ (1.5 : ℝ) ≤ 3 ∧
      (inSqueeze 20 2 1.5 (testDf 10)).getLastD false = true ∧
      (inSqueeze 20 2 3 (testDf 10)).getLastD false = true :=
  ⟨testDf_lo 10 (by norm_num), le_refl 2, by norm_num, inSqueeze_testDf_10,
    C6_amended_monotonicity (testDf 10) 20 2 2 1.5 3
      (testDf_lo 10 (by norm_num)) (le_refl 2) (by norm_num) inSqueeze_testDf_10⟩

/-- C7 counterexample: with one configured ticker whose series produces a true
fused signal, the scan's event trace begins with the Discord alert and ends with
the snapshot publication — the alert fires inside the loop (line 140), before
the store assignment (lines 143-144), contradicting the claim that alerts are
dispatched only after publication. -/
theorem C7_counterexample :
    scan_trace [tkZ] (fun _ => some (testDf 10)) tsT0 =
      [Event.alert (normalizeTicker tkZ) 101,
        Event.publish [(normalizeTicker tkZ,
          Entry.stamped (SqueezeDetails.sig 101 100 true true true true) tsT0)]] := by
  have h1 : scan_markets [tkZ] (fun _ => some (testDf 10)) tsT0 =
      ([(normalizeTicker tkZ,
          Entry.stamped (SqueezeDetails.sig 101 100 true true true true) tsT0)],
        [(normalizeTicker tkZ, (101 : ℝ))]) := by
    rw [scan_markets, List.foldl_cons, List.foldl_nil]
    simp only [scanStep]
    rw [scanEntry_testDf10, scanAlert_testDf10]
    rfl
  rw [scan_trace, h1]
  rfl

/-- C7 amended: during one scan the alerts fire inside the processing loop, in
configuration order, and the snapshot publication is the single last event of
the trace; an alert `(s, p)` is issued exactly when `s` is a configured
(normalized) symbol whose recorded entry is a Signal dictionary with
`signal = true` and price `p`. -/
theorem C7_amended_alert_order (tickers : List String) (fetch : String → Option Df)
    (now : String) (s : String) (p : ℝ) :
    ((s, p) ∈ (scan_markets tickers fetch now).2 ↔
      s ∈ tickers.map normalizeTicker ∧
        ∃ v isq hv mb, ((scan_markets tickers fetch now).1).lookup s =
          some (.stamped (.sig p v isq hv mb true) now)) ∧
    (scan_trace tickers fetch now).getLast? =
      some (Event.publish (scan_markets tickers fetch now).1) ∧
    (∀ ev ∈ (scan_trace tickers fetch now).dropLast, ∃ a q, ev = Event.alert a q) := by
  refine ⟨⟨?_, ?_⟩, ?_, ?_⟩
  · intro hmem
    rw [scan_markets_alerts] at hmem
    obtain ⟨k, hk, hak⟩ := List.mem_filterMap.mp hmem
    have hks : k = s := scanAlert_key hak
    subst hks
    refine ⟨hk, ?_⟩
    rw [scan_markets_lookup, if_pos hk]
    obtain ⟨v, isq, hv, mb, he⟩ := (scanAlert_iff_entry fetch now k p).mp hak
    exact ⟨v, isq, hv, mb, by rw [he]⟩
  · rintro ⟨hs, v, isq, hv, mb, hl⟩
    rw [scan_markets_lookup, if_pos hs] at hl
    rw [scan_markets_alerts]
    exact List.mem_filterMap.mpr ⟨s, hs,
      (scanAlert_iff_entry fetch now s p).mpr ⟨v, isq, hv, mb, Option.some_inj.mp hl⟩⟩
  · rw [scan_trace, List.getLast?_concat]
  · intro ev hev
    rw [scan_trace, List.dropLast_concat] at hev
    obtain ⟨a, ha, hev'⟩ := List.mem_map.mp hev
    exact ⟨a.1, a.2, hev'.symm⟩
